import Mathlib

/-!
# ClearSky policy-layer feedback engine: a formal model

Shallow embedding of the policy-layer feedback engine ("GRPO" / RLHF layer)
of the ClearSky text-to-SQL assistant, together with proofs of the
specification's claims about it.

The repository's surviving sources are the React frontend
(`frontend/src/...`), the project documentation (`docs/RLHF_Explanation.md`,
the GRPO explanation embedded next to `components/schema/TableDetails.tsx`,
`README.md`) and setup scripts.  The backend Python package
(`backend/app/services/grpo/...`, `backend/app/services/rlhf_store.py`,
`backend/app/api/...`) that implements the Advantage Calculator, the Policy
Engine and the Store is not part of the source tree; only its documentation,
its declared interfaces (`frontend/src/api/feedbackApi.ts`) and its callers
(`frontend/src/components/chat/FeedbackButtons.tsx`) are.  Definitions for
those missing parts are therefore modelled from the specification (and the
in-repo documentation of the backend), and are marked as such in their doc
comments.
-/

namespace ClearSky

/-! ## Advantage Calculator (real-valued model)

The arithmetic is modelled over `ℝ` (idealized exact arithmetic in place of
IEEE floats). -/

/-- Arithmetic mean of a list of rewards: `sum / length` (`0` for `[]`,
since division by zero is zero). -/
noncomputable def listMean (l : List ℝ) : ℝ := l.sum / l.length

/-- Population variance of a list of rewards: mean squared deviation from
the arithmetic mean. -/
noncomputable def popVariance (l : List ℝ) : ℝ :=
  ((l.map (fun x => (x - listMean l) ^ 2)).sum) / l.length

/-- Population standard deviation: square root of `popVariance`. -/
noncomputable def popStd (l : List ℝ) : ℝ := Real.sqrt (popVariance l)

/-- The small epsilon below which the standard deviation counts as
numerically zero.  Modelled from the spec ("a small epsilon"); the concrete
value is a representative choice. -/
noncomputable def advEps : ℝ := 1 / 100000000

/-- Modelled from the spec: the Advantage Calculator
(`compute_advantages` of `backend/app/services/grpo/grpo_trainer.py`, a
backend module absent from the source tree; its interface and formula
`Advantage = (reward - mean) / std` are declared in the repository's GRPO
documentation).  Compute the arithmetic mean and the population standard
deviation of the reward list; if the standard deviation is numerically zero
(below `advEps`) every advantage is `0`, otherwise
`advantage[i] = (reward[i] - mean) / std`, positionally aligned. -/
noncomputable def compute_advantages (rewards : List ℝ) : List ℝ :=
  if popStd rewards < advEps then List.replicate rewards.length 0
  else rewards.map (fun r => (r - listMean rewards) / popStd rewards)

lemma sum_map_sub_const (l : List ℝ) (c : ℝ) :
    (l.map (fun x => x - c)).sum = l.sum - l.length * c := by
  induction l with
  | nil => simp
  | cons a t ih =>
      simp only [List.map_cons, List.sum_cons, ih, List.length_cons]
      push_cast
      ring

lemma popVariance_nonneg (l : List ℝ) : 0 ≤ popVariance l := by
  apply div_nonneg _ (Nat.cast_nonneg _)
  apply List.sum_nonneg
  intro x hx
  rcases List.mem_map.1 hx with ⟨y, _, rfl⟩
  positivity

lemma popStd_nonneg (l : List ℝ) : 0 ≤ popStd l := Real.sqrt_nonneg _

lemma sq_popStd (l : List ℝ) : popStd l ^ 2 = popVariance l :=
  Real.sq_sqrt (popVariance_nonneg l)

lemma sum_eq_length_mul_mean (l : List ℝ) (hn : (l.length : ℝ) ≠ 0) :
    l.sum = l.length * listMean l := by
  rw [listMean]
  field_simp

/-- The sum of the z-scores of a list is zero. -/
lemma sum_zscores (l : List ℝ) (σ : ℝ) (hn : (l.length : ℝ) ≠ 0) :
    (l.map (fun x => (x - listMean l) / σ)).sum = 0 := by
  simp only [div_eq_mul_inv]
  rw [List.sum_map_mul_right, sum_map_sub_const, sum_eq_length_mul_mean l hn]
  ring

/-- The mean of the z-scores of a list is zero. -/
lemma mean_zscores (l : List ℝ) (σ : ℝ) (hn : (l.length : ℝ) ≠ 0) :
    listMean (l.map (fun x => (x - listMean l) / σ)) = 0 := by
  rw [listMean, sum_zscores l σ hn, zero_div]

/-- The population variance of the z-scores of a list is `1` when `σ²` is
the population variance of the list and is non-zero. -/
lemma popVariance_zscores (l : List ℝ) (σ : ℝ) (hn : (l.length : ℝ) ≠ 0)
    (hσ : σ ^ 2 = popVariance l) (hσ0 : σ ≠ 0) :
    popVariance (l.map (fun x => (x - listMean l) / σ)) = 1 := by
  have hv0 : popVariance l ≠ 0 := by
    intro h
    exact hσ0 (pow_eq_zero_iff (n := 2) (by norm_num) |>.1 (hσ.trans h))
  rw [popVariance, mean_zscores l σ hn, List.length_map, List.map_map]
  have hfun :
      ((fun x => (x - 0) ^ 2) ∘ fun x => (x - listMean l) / σ) =
        fun x => (x - listMean l) ^ 2 * (σ ^ 2)⁻¹ := by
    funext x
    rw [Function.comp_apply, sub_zero, div_pow, div_eq_mul_inv]
  rw [hfun, List.sum_map_mul_right]
  have hS : (l.map (fun x => (x - listMean l) ^ 2)).sum =
      l.length * popVariance l := by
    rw [popVariance]
    field_simp
  rw [hS, hσ]
  field_simp

/-- **C1.** For every list of N rewards (N = group size G ≥ 2) whose
population standard deviation is above the small epsilon, the Advantage
Calculator returns the positionally aligned list with
`advantage[i] = (reward[i] − μ) / σ` (μ the arithmetic mean, σ the
population standard deviation); consequently the returned advantages have
mean exactly 0 and population variance (hence standard deviation) exactly
1. -/
theorem C1_advantage_zscore (rewards : List ℝ) (hG : 2 ≤ rewards.length)
    (hσ : advEps < popStd rewards) :
    compute_advantages rewards =
      rewards.map (fun r => (r - listMean rewards) / popStd rewards) ∧
    (compute_advantages rewards).length = rewards.length ∧
    (∀ i : Fin rewards.length, ∀ h : i.val < (compute_advantages rewards).length,
      (compute_advantages rewards).get ⟨i.val, h⟩ =
        (rewards.get i - listMean rewards) / popStd rewards) ∧
    listMean (compute_advantages rewards) = 0 ∧
    popVariance (compute_advantages rewards) = 1 ∧
    popStd (compute_advantages rewards) = 1 := by
  have heps : (0 : ℝ) < advEps := by rw [advEps]; norm_num
  have hσpos : 0 < popStd rewards := lt_trans heps hσ
  have hguard : ¬ popStd rewards < advEps := not_lt.2 (le_of_lt hσ)
  have hmap : compute_advantages rewards =
      rewards.map (fun r => (r - listMean rewards) / popStd rewards) := by
    rw [compute_advantages, if_neg hguard]
  have hn : (rewards.length : ℝ) ≠ 0 := by
    have : 0 < rewards.length := lt_of_lt_of_le (by norm_num) hG
    exact_mod_cast Nat.pos_iff_ne_zero.1 this
  have hmean : listMean (compute_advantages rewards) = 0 := by
    rw [hmap]; exact mean_zscores rewards _ hn
  have hvar : popVariance (compute_advantages rewards) = 1 := by
    rw [hmap]
    exact popVariance_zscores rewards _ hn (sq_popStd rewards) (ne_of_gt hσpos)
  refine ⟨hmap, ?_, ?_, hmean, hvar, ?_⟩
  · rw [hmap, List.length_map]
  · intro i h
    have := List.get_of_eq hmap ⟨i.val, h⟩
    rw [this]
    simp [List.get_eq_getElem, List.getElem_map]
  · rw [popStd, hvar, Real.sqrt_one]

/-- Witness for C1 at the concrete reward list `[0, 1]`. -/
theorem C1_advantage_zscore_witness :
    advEps < popStd [(0 : ℝ), 1] ∧
    listMean (compute_advantages [(0 : ℝ), 1]) = 0 ∧
    popVariance (compute_advantages [(0 : ℝ), 1]) = 1 := by
  have hvar : popVariance [(0 : ℝ), 1] = 1 / 4 := by
    have hmean : listMean [(0 : ℝ), 1] = 1 / 2 := by
      rw [listMean]; norm_num
    rw [popVariance]
    simp only [hmean, List.map_cons, List.map_nil, List.sum_cons, List.sum_nil]
    norm_num
  have hstd : popStd [(0 : ℝ), 1] = 1 / 2 := by
    have h14 : ((1 : ℝ) / 2) ^ 2 = 1 / 4 := by norm_num
    rw [popStd, hvar, ← h14, Real.sqrt_sq (by norm_num)]
  have hσ : advEps < popStd [(0 : ℝ), 1] := by
    rw [hstd, advEps]; norm_num
  have h := C1_advantage_zscore [(0 : ℝ), 1] (by norm_num) hσ
  exact ⟨hσ, h.2.2.2.1, h.2.2.2.2.1⟩

/-- **C2.** For every list of identical rewards, and more generally whenever
the population standard deviation is numerically zero or below the epsilon,
the Advantage Calculator returns the all-zero list of the same length (the
division by σ is guarded and never performed). -/
theorem C2_zero_std_zero_advantages :
    (∀ (n : ℕ) (c : ℝ),
      compute_advantages (List.replicate n c) = List.replicate n 0) ∧
    (∀ rewards : List ℝ, popStd rewards < advEps →
      compute_advantages rewards = List.replicate rewards.length 0) := by
  constructor
  · intro n c
    have hvar : popVariance (List.replicate n c) = 0 := by
      rcases Nat.eq_zero_or_pos n with hn | hn
      · subst hn
        rw [popVariance]
        simp
      · have hn' : ((List.replicate n c).length : ℝ) ≠ 0 := by
          rw [List.length_replicate]
          exact_mod_cast Nat.pos_iff_ne_zero.1 hn
        have hmean : listMean (List.replicate n c) = c := by
          rw [listMean, List.sum_replicate, List.length_replicate,
            nsmul_eq_mul]
          rw [List.length_replicate] at hn'
          field_simp
        rw [popVariance]
        simp [hmean]
    have hstd : popStd (List.replicate n c) = 0 := by
      rw [popStd, hvar, Real.sqrt_zero]
    rw [compute_advantages, if_pos (by rw [hstd, advEps]; norm_num),
      List.length_replicate]
  · intro rewards h
    rw [compute_advantages, if_pos h]

/-- Witness for C2: identical rewards `[5, 5, 5]`, and the guarded branch at
`[2, 2]` whose standard deviation is (exactly) zero, hence below epsilon. -/
theorem C2_zero_std_zero_advantages_witness :
    compute_advantages (List.replicate 3 (5 : ℝ)) = List.replicate 3 0 ∧
    popStd [(2 : ℝ), 2] < advEps ∧
    compute_advantages [(2 : ℝ), 2] = List.replicate 2 0 := by
  have hvar : popVariance [(2 : ℝ), 2] = 0 := by
    have hmean : listMean [(2 : ℝ), 2] = 2 := by
      rw [listMean]; norm_num
    rw [popVariance]
    simp [hmean]
  have hstd : popStd [(2 : ℝ), 2] < advEps := by
    rw [popStd, hvar, Real.sqrt_zero, advEps]; norm_num
  have h2 := C2_zero_std_zero_advantages.2 [(2 : ℝ), 2] hstd
  exact ⟨C2_zero_std_zero_advantages.1 3 5, hstd, by simpa using h2⟩

/-! ### The documented end-to-end reward example (C3)

The GRPO documentation's example rewards for "Show total revenue by
product". -/

/-- The example reward list `[0.414, 0.497, 0.190, 0.340]` from the GRPO
documentation. -/
noncomputable def rewards4 : List ℝ := [414 / 1000, 497 / 1000, 190 / 1000, 340 / 1000]

lemma rewards4_mean : listMean rewards4 = 36025 / 100000 := by
  rw [rewards4, listMean]
  norm_num

lemma rewards4_popVariance : popVariance rewards4 = 127461875 / 10000000000 := by
  rw [popVariance]
  simp only [rewards4_mean]
  rw [rewards4]
  norm_num

lemma rewards4_popStd_lt : popStd rewards4 < 1130 / 10000 := by
  rw [popStd, Real.sqrt_lt' (by norm_num), rewards4_popVariance]
  norm_num

lemma rewards4_lt_popStd : 1128 / 10000 < popStd rewards4 := by
  rw [popStd, Real.lt_sqrt (by norm_num), rewards4_popVariance]
  norm_num

lemma rewards4_popStd_pos : 0 < popStd rewards4 :=
  lt_trans (by norm_num) rewards4_lt_popStd

lemma rewards4_advantages_eq :
    compute_advantages rewards4 =
      [(414 / 1000 - 36025 / 100000) / popStd rewards4,
       (497 / 1000 - 36025 / 100000) / popStd rewards4,
       (190 / 1000 - 36025 / 100000) / popStd rewards4,
       (340 / 1000 - 36025 / 100000) / popStd rewards4] := by
  have hguard : ¬ popStd rewards4 < advEps := by
    apply not_lt.2 (le_of_lt _)
    calc advEps < 1128 / 10000 := by rw [advEps]; norm_num
    _ < popStd rewards4 := rewards4_lt_popStd
  rw [compute_advantages, if_neg hguard]
  simp only [rewards4_mean]
  rw [rewards4]
  simp

/-- **C3 fails as stated.** For the documented reward list
`[0.414, 0.497, 0.190, 0.340]` the population standard deviation is *not*
approximately `0.127` (it is below `0.113`, more than `0.01` away), and the
advantage of the second candidate is not within `0.1` of the documented
`+1.08` (it exceeds `1.20`). -/
theorem C3_counterexample :
    ¬ |popStd rewards4 - 127 / 1000| ≤ 1 / 100 ∧
    ¬ |(compute_advantages rewards4).getD 1 0 - 108 / 100| ≤ 1 / 10 := by
  have hup := rewards4_popStd_lt
  have hlow := rewards4_lt_popStd
  have hpos := rewards4_popStd_pos
  constructor
  · rw [abs_le]
    push_neg
    intro h
    exfalso
    have : (127 : ℝ) / 1000 - 1 / 100 ≤ popStd rewards4 := by linarith
    linarith
  · have hval : (compute_advantages rewards4).getD 1 0 =
        (497 / 1000 - 36025 / 100000) / popStd rewards4 := by
      rw [rewards4_advantages_eq]
      simp [List.getD]
    rw [hval, abs_le]
    push_neg
    intro h
    have hx : (118 : ℝ) / 100 < (497 / 1000 - 36025 / 100000) / popStd rewards4 := by
      rw [lt_div_iff₀ hpos]
      linarith
    linarith

/-- **C3 amended.** For the reward list `[0.414, 0.497, 0.190, 0.340]` the
Advantage Calculator's intermediate mean equals `0.36025` (≈ the documented
`0.360`), its population standard deviation lies in `(0.1128, 0.1130)`
(≈ `0.113`, not the documented `0.127`), and the computed advantages are
approximately `[+0.476, +1.211, −1.508, −0.179]` — the documented
`[+0.42, +1.08, −1.34, −0.16]` correspond to dividing by `0.127`, which is
not the standard deviation of this list. -/
theorem C3_amended_values :
    listMean rewards4 = 36025 / 100000 ∧
    popVariance rewards4 = 127461875 / 10000000000 ∧
    (1128 / 10000 < popStd rewards4 ∧ popStd rewards4 < 1130 / 10000) ∧
    compute_advantages rewards4 =
      rewards4.map (fun r => (r - listMean rewards4) / popStd rewards4) ∧
    (47 / 100 < (compute_advantages rewards4).getD 0 0 ∧
      (compute_advantages rewards4).getD 0 0 < 48 / 100) ∧
    (120 / 100 < (compute_advantages rewards4).getD 1 0 ∧
      (compute_advantages rewards4).getD 1 0 < 122 / 100) ∧
    (-(151 / 100) < (compute_advantages rewards4).getD 2 0 ∧
      (compute_advantages rewards4).getD 2 0 < -(150 / 100)) ∧
    (-(18 / 100) < (compute_advantages rewards4).getD 3 0 ∧
      (compute_advantages rewards4).getD 3 0 < -(17 / 100)) := by
  have hup := rewards4_popStd_lt
  have hlow := rewards4_lt_popStd
  have hpos := rewards4_popStd_pos
  have h0 : (compute_advantages rewards4).getD 0 0 =
      (414 / 1000 - 36025 / 100000) / popStd rewards4 := by
    rw [rewards4_advantages_eq]; simp [List.getD]
  have h1 : (compute_advantages rewards4).getD 1 0 =
      (497 / 1000 - 36025 / 100000) / popStd rewards4 := by
    rw [rewards4_advantages_eq]; simp [List.getD]
  have h2 : (compute_advantages rewards4).getD 2 0 =
      (190 / 1000 - 36025 / 100000) / popStd rewards4 := by
    rw [rewards4_advantages_eq]; simp [List.getD]
  have h3 : (compute_advantages rewards4).getD 3 0 =
      (340 / 1000 - 36025 / 100000) / popStd rewards4 := by
    rw [rewards4_advantages_eq]; simp [List.getD]
  refine ⟨rewards4_mean, rewards4_popVariance, ⟨hlow, hup⟩, ?_, ?_, ?_, ?_, ?_⟩
  · have hguard : ¬ popStd rewards4 < advEps := by
      apply not_lt.2 (le_of_lt _)
      calc advEps < 1128 / 10000 := by rw [advEps]; norm_num
      _ < popStd rewards4 := hlow
    rw [compute_advantages, if_neg hguard]
  · rw [h0]
    constructor
    · rw [lt_div_iff₀ hpos]; linarith
    · rw [div_lt_iff₀ hpos]; linarith
  · rw [h1]
    constructor
    · rw [lt_div_iff₀ hpos]; linarith
    · rw [div_lt_iff₀ hpos]; linarith
  · rw [h2]
    constructor
    · rw [lt_div_iff₀ hpos]; linarith
    · rw [div_lt_iff₀ hpos]; linarith
  · rw [h3]
    constructor
    · rw [lt_div_iff₀ hpos]; linarith
    · rw [div_lt_iff₀ hpos]; linarith

/-! ## Data model of the Feedback/Policy Store

Modelled from the spec (§3 DATA MODEL) and the repository's
`docs/RLHF_Explanation.md` storage layout; the backing Python module
(`backend/app/services/rlhf_store.py`) is absent from the source tree.
Weights are modelled over `ℚ` (exact arithmetic in place of floats). -/

/-- Binary user judgment of a generated answer. -/
inductive FeedbackType where
  | positive : FeedbackType
  | negative : FeedbackType
deriving DecidableEq

/-- The four kinds of policy hints. -/
inductive HintType where
  | prefer : HintType
  | avoid : HintType
  | caution : HintType
  | tip : HintType
deriving DecidableEq

/-- Modelled from the spec: an immutable feedback record with derived
metadata (tables touched and SQL pattern tags extracted from the SQL). -/
structure FeedbackRecord where
  id : Nat
  message_id : String
  session_id : String
  question : String
  sql : String
  feedback_type : FeedbackType
  reason : Option String
  tables : List String
  patterns : List String
deriving DecidableEq

/-- Modelled from the spec: a mutable, weighted policy hint. -/
structure PolicyHint where
  id : Nat
  hint_type : HintType
  description : String
  weight : ℚ
  tables : List String
  pattern : Option String
  source_feedback_count : Nat
deriving DecidableEq

/-- Modelled from the spec: the Feedback/Policy Store — an append-only list
of feedback records, a collection of policy hints, and an id counter. -/
structure RLHFStore where
  records : List FeedbackRecord
  hints : List PolicyHint
  nextId : Nat
deriving DecidableEq

/-- The empty store. -/
def emptyStore : RLHFStore := { records := [], hints := [], nextId := 0 }

/-- Modelled from the spec: GRPO configuration snapshot.  Default values are
the ones documented for `grpo_config.py` in the repository's GRPO
explanation. -/
structure GRPOConfig where
  group_size : Nat := 4
  temperature_sampling : ℚ := 7 / 10
  kl_coef : ℚ := 1 / 20
  scale_rewards : Bool := true
  learning_rate : ℚ := 1 / 10
  min_advantage_threshold : ℚ := 3 / 10
deriving DecidableEq

/-! ## Policy Engine (modelled from the spec)

The Python `PolicyEngine` (`record_feedback`, `apply_advantage_update`,
`get_policy_hints`, bulk re-analysis) is absent from the source tree; the
definitions below are modelled from the spec (§4.3) and from the threshold
table of `docs/RLHF_Explanation.md`. -/

/-- Negative-feedback-on-table hint threshold (2, from the documented
threshold table). -/
def tableNegThreshold : Nat := 2

/-- Negative-feedback-on-pattern hint threshold (3). -/
def patternNegThreshold : Nat := 3

/-- Positive-feedback-on-pattern hint threshold (2). -/
def patternPosThreshold : Nat := 2

/-- Initial weight of a freshly created hint.  Modelled from the spec
(weights live in `[0,1]`; the concrete value is a representative choice). -/
def hintInitWeight : ℚ := 1 / 2

/-- Additive weight increase applied when an existing hint is reinforced by
a further qualifying feedback event (capped at 1). -/
def hintReinforce : ℚ := 1 / 10

/-- Number of negative feedback records touching table `t`. -/
def negCountTable (st : RLHFStore) (t : String) : Nat :=
  (st.records.filter
    (fun r => decide (r.feedback_type = FeedbackType.negative ∧ t ∈ r.tables))).length

/-- Number of negative feedback records tagged with pattern `p`. -/
def negCountPattern (st : RLHFStore) (p : String) : Nat :=
  (st.records.filter
    (fun r => decide (r.feedback_type = FeedbackType.negative ∧ p ∈ r.patterns))).length

/-- Number of positive feedback records tagged with pattern `p`. -/
def posCountPattern (st : RLHFStore) (p : String) : Nat :=
  (st.records.filter
    (fun r => decide (r.feedback_type = FeedbackType.positive ∧ p ∈ r.patterns))).length

/-- Hint identity: a hint has key `(ty, tabs, pat)` when its type, table set
and pattern coincide with it. -/
def hintHasKey (h : PolicyHint) (ty : HintType) (tabs : List String)
    (pat : Option String) : Prop :=
  h.hint_type = ty ∧ h.tables = tabs ∧ h.pattern = pat

instance (h : PolicyHint) (ty : HintType) (tabs : List String)
    (pat : Option String) : Decidable (hintHasKey h ty tabs pat) := by
  unfold hintHasKey
  infer_instance

/-- Reinforce an existing hint: additively increase its weight (capped at 1)
and increment its `source_feedback_count`. -/
def reinforceHint (h : PolicyHint) : PolicyHint :=
  { h with
      weight := min 1 (h.weight + hintReinforce),
      source_feedback_count := h.source_feedback_count + 1 }

/-- Modelled from the spec: create-or-reinforce for the hint identity key
`(ty, tabs, pat)` — reinforce every existing hint with that key, or append a
fresh hint when none exists (never duplicating a key). -/
def upsertHint (st : RLHFStore) (ty : HintType) (tabs : List String)
    (pat : Option String) (desc : String) : RLHFStore :=
  if st.hints.any (fun h => decide (hintHasKey h ty tabs pat)) then
    { st with
        hints := st.hints.map
          (fun h => if hintHasKey h ty tabs pat then reinforceHint h else h) }
  else
    { st with
        hints := st.hints ++
          [{ id := st.nextId, hint_type := ty, description := desc,
             weight := hintInitWeight, tables := tabs, pattern := pat,
             source_feedback_count := 1 }],
        nextId := st.nextId + 1 }

/-- Description of a table caution hint (wording from
`docs/RLHF_Explanation.md`). -/
def cautionDesc (t : String) : String :=
  "CAUTION: Be careful with " ++ t ++ " table"

/-- Description of a pattern avoid hint. -/
def avoidDesc (p : String) : String :=
  "AVOID: " ++ p ++ " often causes issues"

/-- Description of a pattern prefer hint. -/
def preferDesc (p : String) : String :=
  "PREFER: " ++ p ++ " works well"

/-- Threshold rule for one touched table of a negative record. -/
def tableRule (s : RLHFStore) (t : String) : RLHFStore :=
  if tableNegThreshold ≤ negCountTable s t then
    upsertHint s HintType.caution [t] none (cautionDesc t)
  else s

/-- Threshold rule for one pattern tag of a negative record. -/
def patternNegRule (s : RLHFStore) (p : String) : RLHFStore :=
  if patternNegThreshold ≤ negCountPattern s p then
    upsertHint s HintType.avoid [] (some p) (avoidDesc p)
  else s

/-- Threshold rule for one pattern tag of a positive record. -/
def patternPosRule (s : RLHFStore) (p : String) : RLHFStore :=
  if patternPosThreshold ≤ posCountPattern s p then
    upsertHint s HintType.prefer [] (some p) (preferDesc p)
  else s

/-- Evaluate the fixed threshold decision table for a just-stored record. -/
def applyThresholds (st : RLHFStore) (fr : FeedbackRecord) : RLHFStore :=
  match fr.feedback_type with
  | FeedbackType.negative =>
      fr.patterns.foldl patternNegRule (fr.tables.foldl tableRule st)
  | FeedbackType.positive =>
      fr.patterns.foldl patternPosRule st

/-- The feedback record created by `record_feedback`, with derived
`(tables, patterns)` metadata obtained from the abstracted extraction. -/
def recordOf (extract : String → List String × List String)
    (st : RLHFStore) (message_id session_id question sql : String)
    (fb : FeedbackType) (reason : Option String) : FeedbackRecord :=
  { id := st.nextId, message_id := message_id, session_id := session_id,
    question := question, sql := sql, feedback_type := fb, reason := reason,
    tables := (extract sql).1, patterns := (extract sql).2 }

/-- Modelled from the spec: `record_feedback` of the Policy Engine.  The
string/regex-level table and pattern extraction is abstracted as the
explicit parameter `extract` (returning the derived `(tables, patterns)`
metadata of the SQL).  The record is stored append-only, then the
accumulated counts are evaluated against the fixed thresholds, creating or
reinforcing hints. -/
def record_feedback (extract : String → List String × List String)
    (st : RLHFStore) (message_id session_id question sql : String)
    (fb : FeedbackType) (reason : Option String) :
    RLHFStore × FeedbackRecord :=
  let fr : FeedbackRecord :=
    recordOf extract st message_id session_id question sql fb reason
  let st1 : RLHFStore :=
    { st with records := st.records ++ [fr], nextId := st.nextId + 1 }
  (applyThresholds st1 fr, fr)

/-- Clamp a weight into `[0, 1]`. -/
def clamp01 (x : ℚ) : ℚ := max 0 (min 1 x)

/-- A hint matches a candidate's tables/patterns when its table set
intersects the candidate's tables or its pattern tag is among the
candidate's patterns. -/
def hintMatches (h : PolicyHint) (tabs pats : List String) : Prop :=
  (∃ t ∈ h.tables, t ∈ tabs) ∨ (∃ p, h.pattern = some p ∧ p ∈ pats)

instance (h : PolicyHint) (tabs pats : List String) :
    Decidable (hintMatches h tabs pats) := by
  unfold hintMatches
  infer_instance

/-- Nudge a matching hint's weight by `learning_rate × advantage`, clamped
into `[0,1]`, incrementing its `source_feedback_count`. -/
def nudgeHint (cfg : GRPOConfig) (adv : ℚ) (h : PolicyHint) : PolicyHint :=
  { h with
      weight := clamp01 (h.weight + cfg.learning_rate * adv),
      source_feedback_count := h.source_feedback_count + 1 }

/-- Nudge a hint when it matches the candidate's tables/patterns, leave it
unchanged otherwise. -/
def nudgeMatching (cfg : GRPOConfig) (adv : ℚ) (tabs pats : List String)
    (h : PolicyHint) : PolicyHint :=
  if hintMatches h tabs pats then nudgeHint cfg adv h else h

/-- A freshly created pattern hint. -/
def newPatternHint (ty : HintType) (d : String) (n : Nat) (p : String) :
    PolicyHint :=
  { id := n, hint_type := ty, description := d, weight := hintInitWeight,
    tables := [], pattern := some p, source_feedback_count := 1 }

/-- Create a fresh `prefer`/`avoid` hint for pattern `p` when no hint of
that type for `p` exists yet. -/
def createHintFor (ty : HintType) (desc : String → String) (s : RLHFStore)
    (p : String) : RLHFStore :=
  if s.hints.any (fun h => decide (h.hint_type = ty ∧ h.pattern = some p)) then s
  else
    { s with
        hints := s.hints ++ [newPatternHint ty (desc p) s.nextId p],
        nextId := s.nextId + 1 }

/-- Modelled from the spec: `apply_advantage_update` of the Policy Engine.
If `|advantage|` does not exceed `min_advantage_threshold` (the threshold
itself counting as no-update, per the spec's design note) the store is left
untouched.  Otherwise the weight of every matching hint is nudged by
`learning_rate × advantage` (clamped into `[0,1]`), and a new
`prefer`/`avoid` hint may be created for a strongly-positive/negative
pattern that has no existing hint yet. -/
def apply_advantage_update (cfg : GRPOConfig) (st : RLHFStore)
    (_question _candidate_sql : String) (advantage : ℚ)
    (tabs pats : List String) : RLHFStore :=
  if |advantage| ≤ cfg.min_advantage_threshold then st
  else if 0 < advantage then
    pats.foldl (createHintFor HintType.prefer preferDesc)
      { st with hints := st.hints.map (nudgeMatching cfg advantage tabs pats) }
  else
    pats.foldl (createHintFor HintType.avoid avoidDesc)
      { st with hints := st.hints.map (nudgeMatching cfg advantage tabs pats) }

/-- All tables touched by any stored record (deduplicated). -/
def touchedTables (st : RLHFStore) : List String :=
  ((st.records.map (fun r => r.tables)).flatten).dedup

/-- All pattern tags of any stored record (deduplicated). -/
def touchedPatterns (st : RLHFStore) : List String :=
  ((st.records.map (fun r => r.patterns)).flatten).dedup

/-- Modelled from the spec: the bulk re-analysis trigger
(`/api/feedback/analyze`): re-evaluate the fixed threshold decision table
over the accumulated counts of every touched table and pattern, creating or
reinforcing hints. -/
def analyze_feedback (st : RLHFStore) : RLHFStore :=
  (touchedPatterns st).foldl patternPosRule
    ((touchedPatterns st).foldl patternNegRule
      ((touchedTables st).foldl tableRule st))

/-- Maximum number of hints returned to the prompt builder.  Modelled from
the spec ("capped at a fixed maximum count"); the concrete value is a
representative choice. -/
def maxPolicyHints : Nat := 5

/-- Weight-descending order on policy hints. -/
def byWeightGE (a b : PolicyHint) : Prop := b.weight ≤ a.weight

instance : DecidableRel byWeightGE := fun a b =>
  inferInstanceAs (Decidable (b.weight ≤ a.weight))

instance : IsTotal PolicyHint byWeightGE := ⟨fun a b => le_total b.weight a.weight⟩

instance : IsTrans PolicyHint byWeightGE :=
  ⟨fun _ _ _ hab hbc => le_trans hbc hab⟩

/-- A hint is relevant to a query when its table set intersects the given
tables, or its pattern tag is judged relevant to the question text (the
string heuristic is abstracted as the parameter `patRel`). -/
def hintRelevant (patRel : String → String → Bool) (question : String)
    (tables : List String) (h : PolicyHint) : Prop :=
  (∃ t ∈ h.tables, t ∈ tables) ∨ (∃ p, h.pattern = some p ∧ patRel p question = true)

instance (patRel : String → String → Bool) (question : String)
    (tables : List String) (h : PolicyHint) :
    Decidable (hintRelevant patRel question tables h) := by
  unfold hintRelevant
  infer_instance

/-- Modelled from the spec: `get_policy_hints` of the Policy Engine —
relevant hints, ordered by weight descending, capped at
`maxPolicyHints`. -/
def get_policy_hints (patRel : String → String → Bool) (st : RLHFStore)
    (question : String) (tables : List String) : List PolicyHint :=
  (List.insertionSort byWeightGE
    (st.hints.filter (fun h => decide (hintRelevant patRel question tables h)))).take
    maxPolicyHints

/-! ## Store invariants (C4) -/

/-- The data-model weight invariant: every hint weight lies in `[0, 1]`. -/
def WeightInv (st : RLHFStore) : Prop :=
  ∀ h ∈ st.hints, 0 ≤ h.weight ∧ h.weight ≤ 1

/-- Monotonicity of feedback counts across an operation: every hint of the
old store has a successor with the same id and a feedback count at least as
large. -/
def CountMono (st st' : RLHFStore) : Prop :=
  ∀ h ∈ st.hints, ∃ h' ∈ st'.hints,
    h'.id = h.id ∧ h.source_feedback_count ≤ h'.source_feedback_count

lemma CountMono_refl (st : RLHFStore) : CountMono st st :=
  fun h hm => ⟨h, hm, rfl, le_refl _⟩

lemma CountMono_of_eq {st st' : RLHFStore} (h : st' = st) : CountMono st st' :=
  h ▸ CountMono_refl st

lemma CountMono_trans {s1 s2 s3 : RLHFStore} (h12 : CountMono s1 s2)
    (h23 : CountMono s2 s3) : CountMono s1 s3 := by
  intro h hm
  obtain ⟨h', hm', hid', hc'⟩ := h12 h hm
  obtain ⟨h'', hm'', hid'', hc''⟩ := h23 h' hm'
  exact ⟨h'', hm'', hid''.trans hid', hc'.trans hc''⟩

lemma hintInitWeight_mem : 0 ≤ hintInitWeight ∧ hintInitWeight ≤ 1 := by
  rw [hintInitWeight]
  norm_num

lemma reinforceHint_weight_mem (h : PolicyHint) (h0 : 0 ≤ h.weight) :
    0 ≤ (reinforceHint h).weight ∧ (reinforceHint h).weight ≤ 1 := by
  rw [reinforceHint]
  constructor
  · apply le_min (by norm_num)
    have : (0 : ℚ) ≤ hintReinforce := by rw [hintReinforce]; norm_num
    linarith
  · exact min_le_left _ _

lemma clamp01_mem (x : ℚ) : 0 ≤ clamp01 x ∧ clamp01 x ≤ 1 := by
  rw [clamp01]
  exact ⟨le_max_left _ _, max_le (by norm_num) (min_le_left _ _)⟩

/-- An operation step preserves the weight invariant and count
monotonicity. -/
def GoodStep (st st' : RLHFStore) : Prop :=
  (WeightInv st → WeightInv st') ∧ (WeightInv st → CountMono st st')

lemma GoodStep_refl (st : RLHFStore) : GoodStep st st :=
  ⟨id, fun _ => CountMono_refl st⟩

lemma GoodStep_trans {s1 s2 s3 : RLHFStore} (h12 : GoodStep s1 s2)
    (h23 : GoodStep s2 s3) : GoodStep s1 s3 := by
  refine ⟨fun hI => h23.1 (h12.1 hI), fun hI => ?_⟩
  exact CountMono_trans (h12.2 hI) (h23.2 (h12.1 hI))

lemma upsertHint_goodStep (st : RLHFStore) (ty : HintType)
    (tabs : List String) (pat : Option String) (desc : String) :
    GoodStep st (upsertHint st ty tabs pat desc) := by
  rw [upsertHint]
  split
  · constructor
    · intro hI h' hm'
      rcases List.mem_map.1 hm' with ⟨h, hm, rfl⟩
      by_cases hk : hintHasKey h ty tabs pat
      · rw [if_pos hk]
        exact reinforceHint_weight_mem h (hI h hm).1
      · rw [if_neg hk]
        exact hI h hm
    · intro _ h hm
      refine ⟨if hintHasKey h ty tabs pat then reinforceHint h else h,
        List.mem_map_of_mem _ hm, ?_, ?_⟩
      · by_cases hk : hintHasKey h ty tabs pat
        · rw [if_pos hk]; rfl
        · rw [if_neg hk]
      · by_cases hk : hintHasKey h ty tabs pat
        · rw [if_pos hk]
          exact Nat.le_succ _
        · rw [if_neg hk]
  · constructor
    · intro hI h' hm'
      rcases List.mem_append.1 hm' with hm | hm
      · exact hI h' hm
      · rcases List.mem_singleton.1 hm with rfl
        exact hintInitWeight_mem
    · intro _ h hm
      exact ⟨h, List.mem_append_left _ hm, rfl, le_refl _⟩

lemma tableRule_goodStep (s : RLHFStore) (t : String) :
    GoodStep s (tableRule s t) := by
  rw [tableRule]
  split
  · exact upsertHint_goodStep s _ _ _ _
  · exact GoodStep_refl s

lemma patternNegRule_goodStep (s : RLHFStore) (p : String) :
    GoodStep s (patternNegRule s p) := by
  rw [patternNegRule]
  split
  · exact upsertHint_goodStep s _ _ _ _
  · exact GoodStep_refl s

lemma patternPosRule_goodStep (s : RLHFStore) (p : String) :
    GoodStep s (patternPosRule s p) := by
  rw [patternPosRule]
  split
  · exact upsertHint_goodStep s _ _ _ _
  · exact GoodStep_refl s

lemma foldl_goodStep {α : Type} (F : RLHFStore → α → RLHFStore)
    (hF : ∀ s a, GoodStep s (F s a)) :
    ∀ (L : List α) (s : RLHFStore), GoodStep s (L.foldl F s) := by
  intro L
  induction L with
  | nil => intro s; exact GoodStep_refl s
  | cons a L ih =>
      intro s
      rw [List.foldl_cons]
      exact GoodStep_trans (hF s a) (ih (F s a))

lemma applyThresholds_goodStep (st : RLHFStore) (fr : FeedbackRecord) :
    GoodStep st (applyThresholds st fr) := by
  rw [applyThresholds]
  cases fr.feedback_type
  · exact foldl_goodStep _ patternPosRule_goodStep _ _
  · exact GoodStep_trans (foldl_goodStep _ tableRule_goodStep _ _)
      (foldl_goodStep _ patternNegRule_goodStep _ _)

lemma addRecord_goodStep (st : RLHFStore) (fr : FeedbackRecord) (n : Nat) :
    GoodStep st { st with records := st.records ++ [fr], nextId := n } :=
  ⟨fun hI => hI, fun _ h hm => ⟨h, hm, rfl, le_refl _⟩⟩

lemma record_feedback_goodStep (extract : String → List String × List String)
    (st : RLHFStore) (m s q sql : String) (fb : FeedbackType)
    (r : Option String) :
    GoodStep st (record_feedback extract st m s q sql fb r).1 := by
  rw [record_feedback]
  exact GoodStep_trans (addRecord_goodStep st _ _) (applyThresholds_goodStep _ _)

lemma createHintFor_goodStep (ty : HintType) (desc : String → String)
    (s : RLHFStore) (p : String) : GoodStep s (createHintFor ty desc s p) := by
  rw [createHintFor]
  split
  · exact GoodStep_refl s
  · constructor
    · intro hI h' hm'
      rcases List.mem_append.1 hm' with hm | hm
      · exact hI h' hm
      · rcases List.mem_singleton.1 hm with rfl
        exact hintInitWeight_mem
    · intro _ h hm
      exact ⟨h, List.mem_append_left _ hm, rfl, le_refl _⟩

lemma nudge_map_goodStep (cfg : GRPOConfig) (st : RLHFStore) (adv : ℚ)
    (tabs pats : List String) :
    GoodStep st
      { st with hints := st.hints.map (nudgeMatching cfg adv tabs pats) } := by
  constructor
  · intro hI h' hm'
    rcases List.mem_map.1 hm' with ⟨h, hm, rfl⟩
    rw [nudgeMatching]
    by_cases hk : hintMatches h tabs pats
    · rw [if_pos hk]
      exact clamp01_mem _
    · rw [if_neg hk]
      exact hI h hm
  · intro _ h hm
    refine ⟨nudgeMatching cfg adv tabs pats h,
      List.mem_map_of_mem _ hm, ?_, ?_⟩
    · rw [nudgeMatching]
      by_cases hk : hintMatches h tabs pats
      · rw [if_pos hk]; rfl
      · rw [if_neg hk]
    · rw [nudgeMatching]
      by_cases hk : hintMatches h tabs pats
      · rw [if_pos hk]
        exact Nat.le_succ _
      · rw [if_neg hk]

lemma apply_advantage_update_goodStep (cfg : GRPOConfig) (st : RLHFStore)
    (q sql : String) (adv : ℚ) (tabs pats : List String) :
    GoodStep st (apply_advantage_update cfg st q sql adv tabs pats) := by
  rw [apply_advantage_update]
  split
  · exact GoodStep_refl st
  · split
    · exact GoodStep_trans (nudge_map_goodStep cfg st adv tabs pats)
        (foldl_goodStep _ (createHintFor_goodStep _ _) _ _)
    · exact GoodStep_trans (nudge_map_goodStep cfg st adv tabs pats)
        (foldl_goodStep _ (createHintFor_goodStep _ _) _ _)

lemma analyze_feedback_goodStep (st : RLHFStore) :
    GoodStep st (analyze_feedback st) := by
  rw [analyze_feedback]
  exact GoodStep_trans (foldl_goodStep _ tableRule_goodStep _ _)
    (GoodStep_trans (foldl_goodStep _ patternNegRule_goodStep _ _)
      (foldl_goodStep _ patternPosRule_goodStep _ _))

/-- One advantage-update call of a repeated-update sequence:
`(question, sql, advantage, tables, patterns)`. -/
structure UpdateCall where
  question : String
  sql : String
  advantage : ℚ
  tables : List String
  patterns : List String
deriving DecidableEq

/-- Run a sequence of `apply_advantage_update` calls against a store. -/
def runUpdates (cfg : GRPOConfig) (st : RLHFStore) (calls : List UpdateCall) :
    RLHFStore :=
  calls.foldl
    (fun s c => apply_advantage_update cfg s c.question c.sql c.advantage
      c.tables c.patterns) st

/-- **C4.** Every state-mutating operation of the Policy Engine and Store
(`record_feedback`, `apply_advantage_update`, bulk re-analysis) preserves
the data-model invariant: afterwards every hint weight lies in `[0,1]` and
every pre-existing hint has a successor (same id) whose
`source_feedback_count` did not decrease; and for every starting state and
every sequence of repeated `apply_advantage_update` calls, no hint weight
ever leaves `[0,1]`. -/
theorem C4_invariants_preserved (st : RLHFStore) (hInv : WeightInv st) :
    (∀ (extract : String → List String × List String) (m s q sql : String)
        (fb : FeedbackType) (r : Option String),
      WeightInv (record_feedback extract st m s q sql fb r).1 ∧
      CountMono st (record_feedback extract st m s q sql fb r).1) ∧
    (∀ (cfg : GRPOConfig) (q sql : String) (adv : ℚ)
        (tabs pats : List String),
      WeightInv (apply_advantage_update cfg st q sql adv tabs pats) ∧
      CountMono st (apply_advantage_update cfg st q sql adv tabs pats)) ∧
    (WeightInv (analyze_feedback st) ∧ CountMono st (analyze_feedback st)) ∧
    (∀ (cfg : GRPOConfig) (calls : List UpdateCall),
      WeightInv (runUpdates cfg st calls)) := by
  refine ⟨?_, ?_, ?_, ?_⟩
  · intro extract m s q sql fb r
    have h := record_feedback_goodStep extract st m s q sql fb r
    exact ⟨h.1 hInv, h.2 hInv⟩
  · intro cfg q sql adv tabs pats
    have h := apply_advantage_update_goodStep cfg st q sql adv tabs pats
    exact ⟨h.1 hInv, h.2 hInv⟩
  · have h := analyze_feedback_goodStep st
    exact ⟨h.1 hInv, h.2 hInv⟩
  · intro cfg calls
    rw [runUpdates]
    have hstep := foldl_goodStep
      (fun (s : RLHFStore) (c : UpdateCall) => apply_advantage_update cfg s
        c.question c.sql c.advantage c.tables c.patterns)
      (fun s c => apply_advantage_update_goodStep cfg s c.question c.sql
        c.advantage c.tables c.patterns)
      calls st
    exact hstep.1 hInv

/-- A concrete policy hint used by witnesses. -/
def hintW : PolicyHint :=
  { id := 0, hint_type := HintType.caution,
    description := cautionDesc "orders", weight := 1 / 2,
    tables := ["orders"], pattern := none, source_feedback_count := 2 }

/-- A concrete store with one hint, used by witnesses. -/
def stW : RLHFStore := { records := [], hints := [hintW], nextId := 1 }

/-- The default GRPO configuration (documented `grpo_config.py` values). -/
def cfgW : GRPOConfig := {}

/-- Witness for C4 at the concrete store `stW`. -/
theorem C4_invariants_preserved_witness :
    WeightInv stW ∧
    WeightInv (analyze_feedback stW) ∧ CountMono stW (analyze_feedback stW) ∧
    WeightInv (runUpdates cfgW stW
      [{ question := "q", sql := "s", advantage := 1, tables := ["orders"],
         patterns := [] }]) := by
  have hInv : WeightInv stW := by
    intro h hm
    rcases List.mem_singleton.1 hm with rfl
    constructor <;> norm_num [hintW]
  have h := C4_invariants_preserved stW hInv
  exact ⟨hInv, h.2.2.1.1, h.2.2.1.2, h.2.2.2 cfgW _⟩

/-! ## Caution-hint threshold behaviour (C5) -/

/-- The caution hints of the store keyed to the single table `t`. -/
def cautionFor (st : RLHFStore) (t : String) : List PolicyHint :=
  st.hints.filter (fun h => decide (hintHasKey h HintType.caution [t] none))

lemma hintHasKey_unique {h : PolicyHint} {ty ty' : HintType}
    {tabs tabs' : List String} {pat pat' : Option String}
    (h1 : hintHasKey h ty tabs pat) (h2 : hintHasKey h ty' tabs' pat') :
    ty = ty' ∧ tabs = tabs' ∧ pat = pat' :=
  ⟨h1.1.symm.trans h2.1, h1.2.1.symm.trans h2.2.1, h1.2.2.symm.trans h2.2.2⟩

lemma keyPred_reinforce (h : PolicyHint) (ty : HintType) (tabs : List String)
    (pat : Option String) :
    decide (hintHasKey (reinforceHint h) ty tabs pat) =
      decide (hintHasKey h ty tabs pat) :=
  decide_eq_decide.mpr Iff.rfl

lemma keyPred_condMap (ty0 ty : HintType) (tabs0 tabs : List String)
    (pat0 pat : Option String) (h : PolicyHint) :
    decide (hintHasKey
        (if hintHasKey h ty0 tabs0 pat0 then reinforceHint h else h) ty tabs pat) =
      decide (hintHasKey h ty tabs pat) := by
  by_cases hk : hintHasKey h ty0 tabs0 pat0
  · rw [if_pos hk, keyPred_reinforce]
  · rw [if_neg hk]

lemma filter_map_of_pres (f : PolicyHint → PolicyHint) (p : PolicyHint → Bool)
    (hf : ∀ h, p (f h) = p h) (l : List PolicyHint) :
    (l.map f).filter p = (l.filter p).map f := by
  induction l with
  | nil => rfl
  | cons a l ih =>
      rw [List.map_cons, List.filter_cons, List.filter_cons, hf a]
      cases hpa : p a
      · simpa using ih
      · simpa using ih

lemma upsertHint_records (st : RLHFStore) (ty : HintType) (tabs : List String)
    (pat : Option String) (d : String) :
    (upsertHint st ty tabs pat d).records = st.records := by
  rw [upsertHint]
  split <;> rfl

/-- Upserting a key other than `(caution, [t], none)` leaves the caution
hints for `t` untouched. -/
lemma cautionFor_upsert_other (st : RLHFStore) (ty : HintType)
    (tabs : List String) (pat : Option String) (d t : String)
    (hne : ¬(ty = HintType.caution ∧ tabs = [t] ∧ pat = none)) :
    cautionFor (upsertHint st ty tabs pat d) t = cautionFor st t := by
  rw [upsertHint]
  split
  · show ((st.hints.map _).filter _) = _
    rw [filter_map_of_pres _ _ (keyPred_condMap ty HintType.caution tabs [t] pat none)]
    rw [cautionFor]
    have : ∀ h ∈ st.hints.filter
        (fun h => decide (hintHasKey h HintType.caution [t] none)),
        (if hintHasKey h ty tabs pat then reinforceHint h else h) = h := by
      intro h hm
      have hk : hintHasKey h HintType.caution [t] none :=
        of_decide_eq_true (List.mem_filter.1 hm).2
      rw [if_neg (fun hk0 => hne (hintHasKey_unique hk0 hk))]
    calc (st.hints.filter _).map _ = (st.hints.filter _).map id :=
          List.map_congr_left this
    _ = _ := List.map_id _
  · show ((st.hints ++ [_]).filter _) = _
    rw [List.filter_append]
    have hnew : decide (hintHasKey
        { id := st.nextId, hint_type := ty, description := d,
          weight := hintInitWeight, tables := tabs, pattern := pat,
          source_feedback_count := 1 } HintType.caution [t] none) = false := by
      apply decide_eq_false
      intro hk
      exact hne ⟨hk.1, hk.2.1, hk.2.2⟩
    rw [List.filter_cons, hnew]
    simp [cautionFor]

/-- Upserting the key `(caution, [t], none)` itself: when no caution hint
for `t` exists a fresh one is appended, otherwise every existing one is
reinforced. -/
lemma cautionFor_upsert_same (st : RLHFStore) (t d : String) :
    cautionFor (upsertHint st HintType.caution [t] none d) t =
      if cautionFor st t = [] then
        [{ id := st.nextId, hint_type := HintType.caution, description := d,
           weight := hintInitWeight, tables := [t], pattern := none,
           source_feedback_count := 1 }]
      else (cautionFor st t).map reinforceHint := by
  have hany : (st.hints.any
      (fun h => decide (hintHasKey h HintType.caution [t] none))) = true ↔
      ¬ cautionFor st t = [] := by
    rw [List.any_eq_true, cautionFor]
    constructor
    · rintro ⟨h, hm, hp⟩ hnil
      have : h ∈ st.hints.filter
          (fun h => decide (hintHasKey h HintType.caution [t] none)) :=
        List.mem_filter.2 ⟨hm, hp⟩
      rw [hnil] at this
      exact absurd this (List.not_mem_nil h)
    · intro hne
      rcases List.exists_mem_of_ne_nil _ hne with ⟨h, hm⟩
      exact ⟨h, (List.mem_filter.1 hm).1, (List.mem_filter.1 hm).2⟩
  rw [upsertHint]
  split
  · rename_i hcond
    rw [if_neg ((hany.1 hcond))]
    show ((st.hints.map _).filter _) = _
    rw [filter_map_of_pres _ _
      (keyPred_condMap HintType.caution HintType.caution [t] [t] none none)]
    apply List.map_congr_left
    intro h hm
    have hk : hintHasKey h HintType.caution [t] none :=
      of_decide_eq_true (List.mem_filter.1 hm).2
    rw [if_pos hk]
  · rename_i hcond
    have hnil : cautionFor st t = [] := by
      by_contra hne
      exact hcond (hany.2 hne)
    rw [if_pos hnil]
    show ((st.hints ++ [_]).filter _) = _
    rw [List.filter_append]
    have : (st.hints.filter
        (fun h => decide (hintHasKey h HintType.caution [t] none))) = [] := hnil
    rw [this]
    have hnew : decide (hintHasKey
        { id := st.nextId, hint_type := HintType.caution, description := d,
          weight := hintInitWeight, tables := [t], pattern := none,
          source_feedback_count := 1 } HintType.caution [t] none) = true :=
      decide_eq_true ⟨rfl, rfl, rfl⟩
    rw [List.filter_cons, hnew]
    simp

lemma tableRule_records (s : RLHFStore) (t : String) :
    (tableRule s t).records = s.records := by
  rw [tableRule]
  split
  · exact upsertHint_records _ _ _ _ _
  · rfl

lemma patternNegRule_records (s : RLHFStore) (p : String) :
    (patternNegRule s p).records = s.records := by
  rw [patternNegRule]
  split
  · exact upsertHint_records _ _ _ _ _
  · rfl

lemma patternPosRule_records (s : RLHFStore) (p : String) :
    (patternPosRule s p).records = s.records := by
  rw [patternPosRule]
  split
  · exact upsertHint_records _ _ _ _ _
  · rfl

lemma foldl_records {α : Type} (F : RLHFStore → α → RLHFStore)
    (hF : ∀ s a, (F s a).records = s.records) :
    ∀ (L : List α) (s : RLHFStore), (L.foldl F s).records = s.records := by
  intro L
  induction L with
  | nil => intro s; rfl
  | cons a L ih =>
      intro s
      rw [List.foldl_cons, ih (F s a), hF s a]

lemma negCountTable_congr (s s' : RLHFStore) (h : s'.records = s.records)
    (t : String) : negCountTable s' t = negCountTable s t := by
  rw [negCountTable, negCountTable, h]

lemma cautionFor_patternNegRule (s : RLHFStore) (p t : String) :
    cautionFor (patternNegRule s p) t = cautionFor s t := by
  rw [patternNegRule]
  split
  · exact cautionFor_upsert_other _ _ _ _ _ _ (fun hk => by cases hk.1)
  · rfl

lemma cautionFor_foldl_patternNegRule (L : List String) (s : RLHFStore)
    (t : String) :
    cautionFor (L.foldl patternNegRule s) t = cautionFor s t := by
  induction L generalizing s with
  | nil => rfl
  | cons p L ih =>
      rw [List.foldl_cons, ih (patternNegRule s p), cautionFor_patternNegRule]

lemma cautionFor_tableRule_ne (s : RLHFStore) (t' t : String) (hne : t' ≠ t) :
    cautionFor (tableRule s t') t = cautionFor s t := by
  rw [tableRule]
  split
  · refine cautionFor_upsert_other _ _ _ _ _ _ (fun hk => hne ?_)
    have h2 := hk.2.1
    exact (List.cons_eq_cons.1 h2).1
  · rfl

lemma cautionFor_foldl_tableRule_not_mem (L : List String) (t : String)
    (hnm : t ∉ L) (s : RLHFStore) :
    cautionFor (L.foldl tableRule s) t = cautionFor s t := by
  induction L generalizing s with
  | nil => rfl
  | cons t' L ih =>
      rw [List.foldl_cons,
        ih (fun hm => hnm (List.mem_cons_of_mem t' hm)) (tableRule s t'),
        cautionFor_tableRule_ne s t' t
          (fun he => hnm (he ▸ List.mem_cons_self t' L))]

lemma negCountTable_snoc (st : RLHFStore) (fr : FeedbackRecord) (n : Nat)
    (t : String) :
    negCountTable { st with records := st.records ++ [fr], nextId := n } t =
      negCountTable st t +
        (if fr.feedback_type = FeedbackType.negative ∧ t ∈ fr.tables then 1
         else 0) := by
  rw [negCountTable, negCountTable]
  show ((st.records ++ [fr]).filter _).length = _
  rw [List.filter_append, List.length_append]
  by_cases hP : fr.feedback_type = FeedbackType.negative ∧ t ∈ fr.tables
  · rw [if_pos hP]
    congr 1
    rw [List.filter_cons, decide_eq_true hP]
    simp
  · rw [if_neg hP]
    rw [List.filter_cons, decide_eq_false hP]
    simp

/-- Threshold processing of a negative record, restricted to the caution
hints of one touched table `t`. -/
lemma cautionFor_applyThresholds_neg (st1 : RLHFStore) (fr : FeedbackRecord)
    (hfb : fr.feedback_type = FeedbackType.negative) (t : String)
    (ht : t ∈ fr.tables) (hnd : fr.tables.Nodup) :
    (¬ tableNegThreshold ≤ negCountTable st1 t →
      cautionFor (applyThresholds st1 fr) t = cautionFor st1 t) ∧
    (tableNegThreshold ≤ negCountTable st1 t →
      (cautionFor st1 t = [] →
        ∃ h, cautionFor (applyThresholds st1 fr) t = [h] ∧
          h.hint_type = HintType.caution ∧ h.tables = [t] ∧ h.pattern = none ∧
          h.description = cautionDesc t ∧ h.weight = hintInitWeight ∧
          h.source_feedback_count = 1) ∧
      (∀ h0, cautionFor st1 t = [h0] →
        cautionFor (applyThresholds st1 fr) t = [reinforceHint h0])) := by
  have hred : applyThresholds st1 fr =
      fr.patterns.foldl patternNegRule (fr.tables.foldl tableRule st1) := by
    rw [applyThresholds, hfb]
  rw [hred]
  obtain ⟨L1, L2, hL⟩ := List.append_of_mem ht
  rw [hL] at hnd
  rw [List.nodup_append] at hnd
  have ht1 : t ∉ L1 := fun hm => hnd.2.2 hm (List.mem_cons_self t L2)
  have ht2 : t ∉ L2 := (List.nodup_cons.1 hnd.2.1).1
  rw [hL, List.foldl_append, List.foldl_cons]
  have hs1rec : (L1.foldl tableRule st1).records = st1.records :=
    foldl_records tableRule tableRule_records L1 st1
  have hs1cnt : negCountTable (L1.foldl tableRule st1) t = negCountTable st1 t :=
    negCountTable_congr st1 _ hs1rec t
  have hs1cf : cautionFor (L1.foldl tableRule st1) t = cautionFor st1 t :=
    cautionFor_foldl_tableRule_not_mem L1 t ht1 st1
  rw [cautionFor_foldl_patternNegRule, cautionFor_foldl_tableRule_not_mem L2 t ht2]
  rw [tableRule, hs1cnt]
  constructor
  · intro hlt
    rw [if_neg hlt, hs1cf]
  · intro hge
    rw [if_pos hge]
    rw [cautionFor_upsert_same, hs1cf]
    constructor
    · intro hnil
      rw [if_pos hnil]
      exact ⟨_, rfl, rfl, rfl, rfl, rfl, rfl, rfl⟩
    · intro h0 h0eq
      rw [if_neg (by rw [h0eq]; exact List.cons_ne_nil h0 []), h0eq]
      rfl

/-- **C5.** For every table `t` touched by a negative feedback submission,
`record_feedback` creates a `caution` hint for `t` exactly when the
accumulated negative-feedback count on `t` (including the new record)
reaches the fixed threshold 2: below the threshold the caution hints for
`t` are unchanged (in particular none is created after a single negative
feedback); at or above the threshold, if no caution hint for `t` existed
exactly one is created (type `caution`, tables `[t]`, initial weight,
count 1), and if the single hint `h0` existed it is reinforced —
weight increased additively capped at 1, `source_feedback_count`
incremented — rather than duplicated.  Hint identity is keyed by
`(hint_type, table-set-or-pattern)`. -/
theorem C5_caution_threshold
    (extract : String → List String × List String) (st : RLHFStore)
    (m s q sql : String) (r : Option String) (t : String) (st' : RLHFStore)
    (ht : t ∈ (extract sql).1) (hnd : (extract sql).1.Nodup)
    (hst' : st' =
      (record_feedback extract st m s q sql FeedbackType.negative r).1) :
    (negCountTable st t + 1 < tableNegThreshold →
      cautionFor st' t = cautionFor st t) ∧
    (tableNegThreshold ≤ negCountTable st t + 1 →
      (cautionFor st t = [] →
        ∃ h, cautionFor st' t = [h] ∧
          h.hint_type = HintType.caution ∧ h.tables = [t] ∧ h.pattern = none ∧
          h.description = cautionDesc t ∧ h.weight = hintInitWeight ∧
          h.source_feedback_count = 1) ∧
      (∀ h0, cautionFor st t = [h0] →
        cautionFor st' t = [reinforceHint h0])) := by
  subst hst'
  have hfr : recordOf extract st m s q sql FeedbackType.negative r =
      { id := st.nextId, message_id := m, session_id := s, question := q,
        sql := sql, feedback_type := FeedbackType.negative, reason := r,
        tables := (extract sql).1, patterns := (extract sql).2 } := rfl
  have hred : (record_feedback extract st m s q sql FeedbackType.negative r).1 =
      applyThresholds
        { st with
            records := st.records ++
              [recordOf extract st m s q sql FeedbackType.negative r],
            nextId := st.nextId + 1 }
        (recordOf extract st m s q sql FeedbackType.negative r) := rfl
  rw [hred]
  have hmain := cautionFor_applyThresholds_neg
    { st with
        records := st.records ++
          [recordOf extract st m s q sql FeedbackType.negative r],
        nextId := st.nextId + 1 }
    (recordOf extract st m s q sql FeedbackType.negative r) rfl t ht hnd
  have hcnt : negCountTable
      { st with
          records := st.records ++
            [recordOf extract st m s q sql FeedbackType.negative r],
          nextId := st.nextId + 1 } t = negCountTable st t + 1 := by
    rw [negCountTable_snoc, if_pos ⟨rfl, ht⟩]
  have hcf : cautionFor
      { st with
          records := st.records ++
            [recordOf extract st m s q sql FeedbackType.negative r],
          nextId := st.nextId + 1 } t = cautionFor st t := rfl
  rw [hcnt, hcf] at hmain
  constructor
  · intro hlt
    exact hmain.1 (Nat.not_le.2 hlt)
  · exact hmain.2

/-- A concrete extraction used by witnesses: every SQL maps to the single
table `orders` and the pattern tag `SELECT`. -/
def extractW : String → List String × List String :=
  fun _ => (["orders"], ["SELECT"])

/-- A concrete prior negative feedback record on the `orders` table. -/
def recW : FeedbackRecord :=
  { id := 0, message_id := "m1", session_id := "s1", question := "q1",
    sql := "SELECT * FROM orders", feedback_type := FeedbackType.negative,
    reason := none, tables := ["orders"], patterns := ["SELECT"] }

/-- A concrete store holding one negative feedback record on `orders` and
no hints yet. -/
def stW2 : RLHFStore := { records := [recW], hints := [], nextId := 1 }

/-- Witness for C5: a second negative feedback on `orders` reaches the
threshold 2 and yields exactly one caution hint for `orders`. -/
theorem C5_caution_threshold_witness :
    (cautionFor
      (record_feedback extractW stW2 "m2" "s2" "q2" "SELECT id FROM orders"
        FeedbackType.negative none).1 "orders").length = 1 := by
  have h := C5_caution_threshold extractW stW2 "m2" "s2" "q2"
    "SELECT id FROM orders" none "orders" _ (by decide) (by decide) rfl
  obtain ⟨hh, heq, _⟩ := (h.2 (by decide)).1 (by decide)
  rw [heq]
  rfl

/-! ## Advantage-update frame conditions (C6) -/

/-- The pattern-hint creation pass only appends hints. -/
lemma foldl_createHintFor_hints (ty : HintType) (desc : String → String) :
    ∀ (L : List String) (s : RLHFStore),
      ∃ created, (L.foldl (createHintFor ty desc) s).hints = s.hints ++ created := by
  intro L
  induction L with
  | nil => intro s; exact ⟨[], (List.append_nil _).symm⟩
  | cons p L ih =>
      intro s
      rw [List.foldl_cons]
      rcases ih (createHintFor ty desc s p) with ⟨c, hc⟩
      by_cases hcond : (s.hints.any
          (fun h => decide (h.hint_type = ty ∧ h.pattern = some p))) = true
      · refine ⟨c, ?_⟩
        rw [hc, createHintFor, if_pos hcond]
      · refine ⟨newPatternHint ty (desc p) s.nextId p :: c, ?_⟩
        rw [hc, createHintFor, if_neg hcond]
        show (s.hints ++ [_]) ++ c = s.hints ++ _ :: c
        rw [List.append_assoc]
        rfl

/-- **C6.** If `|advantage|` is at or below `min_advantage_threshold`
(inclusive no-update), `apply_advantage_update` leaves the entire store
unchanged — no weight change, no hint creation, no count change.  If
`|advantage|` is above the threshold, the hints become the pointwise nudge
of the old hints (each matching hint's weight set to
`clamp01 (weight + learning_rate × advantage)`, its count incremented)
followed by possibly created fresh pattern hints; every matching hint's
nudged version is present, and every non-matching hint is unchanged and
still present. -/
theorem C6_threshold_frame (cfg : GRPOConfig) (st : RLHFStore)
    (q sql : String) (adv : ℚ) (tabs pats : List String) :
    (|adv| ≤ cfg.min_advantage_threshold →
      apply_advantage_update cfg st q sql adv tabs pats = st) ∧
    (cfg.min_advantage_threshold < |adv| →
      (∃ created,
        (apply_advantage_update cfg st q sql adv tabs pats).hints =
          st.hints.map (nudgeMatching cfg adv tabs pats) ++ created) ∧
      (∀ h ∈ st.hints, hintMatches h tabs pats →
        nudgeHint cfg adv h ∈ (apply_advantage_update cfg st q sql adv tabs pats).hints ∧
        (nudgeHint cfg adv h).weight = clamp01 (h.weight + cfg.learning_rate * adv)) ∧
      (∀ h ∈ st.hints, ¬ hintMatches h tabs pats →
        h ∈ (apply_advantage_update cfg st q sql adv tabs pats).hints)) := by
  constructor
  · intro hle
    rw [apply_advantage_update, if_pos hle]
  · intro hgt
    have hne : ¬ |adv| ≤ cfg.min_advantage_threshold := not_le.2 hgt
    have hcore : ∀ (ty : HintType) (desc : String → String),
        (∃ created,
          (pats.foldl (createHintFor ty desc)
            { st with hints := st.hints.map (nudgeMatching cfg adv tabs pats) }).hints =
            st.hints.map (nudgeMatching cfg adv tabs pats) ++ created) ∧
        (∀ h ∈ st.hints, hintMatches h tabs pats →
          nudgeHint cfg adv h ∈ (pats.foldl (createHintFor ty desc)
            { st with hints := st.hints.map (nudgeMatching cfg adv tabs pats) }).hints) ∧
        (∀ h ∈ st.hints, ¬ hintMatches h tabs pats →
          h ∈ (pats.foldl (createHintFor ty desc)
            { st with hints := st.hints.map (nudgeMatching cfg adv tabs pats) }).hints) := by
      intro ty desc
      rcases foldl_createHintFor_hints ty desc pats
        { st with hints := st.hints.map (nudgeMatching cfg adv tabs pats) } with ⟨c, hc⟩
      refine ⟨⟨c, hc⟩, ?_, ?_⟩
      · intro h hm hmatch
        rw [hc]
        apply List.mem_append_left
        show nudgeHint cfg adv h ∈ st.hints.map (nudgeMatching cfg adv tabs pats)
        have : nudgeMatching cfg adv tabs pats h = nudgeHint cfg adv h := by
          rw [nudgeMatching, if_pos hmatch]
        rw [← this]
        exact List.mem_map_of_mem _ hm
      · intro h hm hnm
        rw [hc]
        apply List.mem_append_left
        show h ∈ st.hints.map (nudgeMatching cfg adv tabs pats)
        have : nudgeMatching cfg adv tabs pats h = h := by
          rw [nudgeMatching, if_neg hnm]
        rw [← this]
        exact List.mem_map_of_mem _ hm
    by_cases hpos : 0 < adv
    · rw [apply_advantage_update, if_neg hne, if_pos hpos]
      rcases hcore HintType.prefer preferDesc with ⟨h1, h2, h3⟩
      exact ⟨h1, fun h hm hmt => ⟨h2 h hm hmt, rfl⟩, h3⟩
    · rw [apply_advantage_update, if_neg hne, if_neg hpos]
      rcases hcore HintType.avoid avoidDesc with ⟨h1, h2, h3⟩
      exact ⟨h1, fun h hm hmt => ⟨h2 h hm hmt, rfl⟩, h3⟩

/-- Witness for C6: a below-threshold advantage is a no-op on `stW`; an
above-threshold advantage nudges the matching hint `hintW`. -/
theorem C6_threshold_frame_witness :
    apply_advantage_update cfgW stW "q" "s" (1 / 10) ["orders"] [] = stW ∧
    nudgeHint cfgW (1 / 2) hintW ∈
      (apply_advantage_update cfgW stW "q" "s" (1 / 2) ["orders"] []).hints := by
  constructor
  · exact (C6_threshold_frame cfgW stW "q" "s" (1 / 10) ["orders"] []).1
      (by norm_num [cfgW, abs])
  · exact (((C6_threshold_frame cfgW stW "q" "s" (1 / 2) ["orders"] []).2
      (by norm_num [cfgW, abs])).2.1 hintW (List.mem_singleton_self hintW)
      (Or.inl ⟨"orders", List.mem_singleton_self "orders",
        List.mem_singleton_self "orders"⟩)).1

/-! ## Hint retrieval shape (C7) -/

/-- **C7.** For every store state, question text and table set,
`get_policy_hints` returns at most `maxPolicyHints` hints, sorted by weight
descending, and every returned hint either has a table set intersecting
the given tables or a pattern judged relevant to the question. -/
theorem C7_get_policy_hints_shape (patRel : String → String → Bool)
    (st : RLHFStore) (question : String) (tables : List String) :
    (get_policy_hints patRel st question tables).length ≤ maxPolicyHints ∧
    List.Sorted byWeightGE (get_policy_hints patRel st question tables) ∧
    ∀ h ∈ get_policy_hints patRel st question tables,
      hintRelevant patRel question tables h := by
  refine ⟨?_, ?_, ?_⟩
  · rw [get_policy_hints]
    exact List.length_take_le _ _
  · rw [get_policy_hints]
    exact List.Pairwise.sublist (List.take_sublist _ _)
      (List.sorted_insertionSort byWeightGE _)
  · intro h hm
    rw [get_policy_hints] at hm
    have hm2 := List.mem_of_mem_take hm
    rw [List.mem_insertionSort] at hm2
    exact of_decide_eq_true (List.mem_filter.1 hm2).2

/-! ## Serialized concurrent feedback (C9)

The spec's concurrency model requires all state-mutating operations to run
under mutual exclusion scoped to the store instance; an interleaving of two
concurrent `record_feedback` invocations is therefore one of the two
serialization orders, each invocation running atomically. -/

lemma applyThresholds_records (st : RLHFStore) (fr : FeedbackRecord) :
    (applyThresholds st fr).records = st.records := by
  rw [applyThresholds]
  cases fr.feedback_type
  · exact foldl_records _ patternPosRule_records _ _
  · rw [foldl_records _ patternNegRule_records,
      foldl_records _ tableRule_records]

lemma record_feedback_fst_records (extract : String → List String × List String)
    (st : RLHFStore) (m s q sql : String) (fb : FeedbackType)
    (r : Option String) :
    (record_feedback extract st m s q sql fb r).1.records =
      st.records ++ [recordOf extract st m s q sql fb r] := by
  have hred : (record_feedback extract st m s q sql fb r).1 =
      applyThresholds
        { st with
            records := st.records ++ [recordOf extract st m s q sql fb r],
            nextId := st.nextId + 1 }
        (recordOf extract st m s q sql fb r) := rfl
  rw [hred, applyThresholds_records]

lemma negCountTable_record_feedback
    (extract : String → List String × List String) (st : RLHFStore)
    (m s q sql : String) (fb : FeedbackType) (r : Option String) (t : String) :
    negCountTable (record_feedback extract st m s q sql fb r).1 t =
      negCountTable st t +
        (if fb = FeedbackType.negative ∧ t ∈ (extract sql).1 then 1 else 0) := by
  have hrec : (record_feedback extract st m s q sql fb r).1.records =
      ({ st with
          records := st.records ++ [recordOf extract st m s q sql fb r],
          nextId := st.nextId + 1 } : RLHFStore).records := by
    rw [record_feedback_fst_records]
  rw [negCountTable_congr _ _ hrec, negCountTable_snoc]
  rfl

lemma record_feedback_mem_records
    (extract : String → List String × List String) (st : RLHFStore)
    (m s q sql : String) (fb : FeedbackType) (r : Option String) :
    recordOf extract st m s q sql fb r ∈
      (record_feedback extract st m s q sql fb r).1.records := by
  rw [record_feedback_fst_records]
  exact List.mem_append_right _ (List.mem_singleton_self _)

lemma record_feedback_records_mono
    (extract : String → List String × List String) (st : RLHFStore)
    (m s q sql : String) (fb : FeedbackType) (r : Option String)
    (a : FeedbackRecord) (ha : a ∈ st.records) :
    a ∈ (record_feedback extract st m s q sql fb r).1.records := by
  rw [record_feedback_fst_records]
  exact List.mem_append_left _ ha

/-- Effects of two serialized negative feedback submissions, one order. -/
lemma two_feedback_effects
    (extract : String → List String × List String) (st : RLHFStore)
    (m1 s1 q1 sql1 : String) (r1 : Option String)
    (m2 s2 q2 sql2 : String) (r2 : Option String) (t1 t2 : String)
    (ht1 : t1 ∈ (extract sql1).1) (ht2 : t2 ∈ (extract sql2).1)
    (ht1n2 : t1 ∉ (extract sql2).1) (ht2n1 : t2 ∉ (extract sql1).1) :
    (∃ fr ∈ (record_feedback extract
        (record_feedback extract st m1 s1 q1 sql1 FeedbackType.negative r1).1
        m2 s2 q2 sql2 FeedbackType.negative r2).1.records,
      fr.session_id = s1 ∧ fr.sql = sql1 ∧ fr.question = q1 ∧
        fr.feedback_type = FeedbackType.negative) ∧
    (∃ fr ∈ (record_feedback extract
        (record_feedback extract st m1 s1 q1 sql1 FeedbackType.negative r1).1
        m2 s2 q2 sql2 FeedbackType.negative r2).1.records,
      fr.session_id = s2 ∧ fr.sql = sql2 ∧ fr.question = q2 ∧
        fr.feedback_type = FeedbackType.negative) ∧
    negCountTable (record_feedback extract
        (record_feedback extract st m1 s1 q1 sql1 FeedbackType.negative r1).1
        m2 s2 q2 sql2 FeedbackType.negative r2).1 t1 =
      negCountTable st t1 + 1 ∧
    negCountTable (record_feedback extract
        (record_feedback extract st m1 s1 q1 sql1 FeedbackType.negative r1).1
        m2 s2 q2 sql2 FeedbackType.negative r2).1 t2 =
      negCountTable st t2 + 1 := by
  refine ⟨?_, ?_, ?_, ?_⟩
  · refine ⟨recordOf extract st m1 s1 q1 sql1 FeedbackType.negative r1,
      ?_, rfl, rfl, rfl, rfl⟩
    exact record_feedback_records_mono _ _ _ _ _ _ _ _ _
      (record_feedback_mem_records _ _ _ _ _ _ _ _)
  · refine ⟨recordOf extract
      (record_feedback extract st m1 s1 q1 sql1 FeedbackType.negative r1).1
      m2 s2 q2 sql2 FeedbackType.negative r2, ?_, rfl, rfl, rfl, rfl⟩
    exact record_feedback_mem_records _ _ _ _ _ _ _ _
  · rw [negCountTable_record_feedback, if_neg (fun hc => ht1n2 hc.2),
      negCountTable_record_feedback, if_pos ⟨rfl, ht1⟩]
  · rw [negCountTable_record_feedback, if_pos ⟨rfl, ht2⟩,
      negCountTable_record_feedback, if_neg (fun hc => ht2n1 hc.2)]

/-- **C9.** For every interleaving (i.e., under the mandated mutual
exclusion, either serialization order) of two concurrent negative
`record_feedback` invocations from different sessions whose SQL references
disjoint table sets, after both invocations complete the store contains the
effects of both: both feedback records are present, and each touched
table's negative-feedback count has increased by exactly one — neither
update is lost. -/
theorem C9_no_lost_update
    (extract : String → List String × List String) (st : RLHFStore)
    (m1 s1 q1 sql1 : String) (r1 : Option String)
    (m2 s2 q2 sql2 : String) (r2 : Option String) (t1 t2 : String)
    (stA stB : RLHFStore)
    (hdisj : ∀ u ∈ (extract sql1).1, u ∉ (extract sql2).1)
    (_hsess : s1 ≠ s2)
    (ht1 : t1 ∈ (extract sql1).1) (ht2 : t2 ∈ (extract sql2).1)
    (hA : stA = (record_feedback extract
      (record_feedback extract st m1 s1 q1 sql1 FeedbackType.negative r1).1
      m2 s2 q2 sql2 FeedbackType.negative r2).1)
    (hB : stB = (record_feedback extract
      (record_feedback extract st m2 s2 q2 sql2 FeedbackType.negative r2).1
      m1 s1 q1 sql1 FeedbackType.negative r1).1) :
    ((∃ fr ∈ stA.records, fr.session_id = s1 ∧ fr.sql = sql1 ∧
        fr.question = q1 ∧ fr.feedback_type = FeedbackType.negative) ∧
     (∃ fr ∈ stA.records, fr.session_id = s2 ∧ fr.sql = sql2 ∧
        fr.question = q2 ∧ fr.feedback_type = FeedbackType.negative) ∧
     negCountTable stA t1 = negCountTable st t1 + 1 ∧
     negCountTable stA t2 = negCountTable st t2 + 1) ∧
    ((∃ fr ∈ stB.records, fr.session_id = s1 ∧ fr.sql = sql1 ∧
        fr.question = q1 ∧ fr.feedback_type = FeedbackType.negative) ∧
     (∃ fr ∈ stB.records, fr.session_id = s2 ∧ fr.sql = sql2 ∧
        fr.question = q2 ∧ fr.feedback_type = FeedbackType.negative) ∧
     negCountTable stB t1 = negCountTable st t1 + 1 ∧
     negCountTable stB t2 = negCountTable st t2 + 1) := by
  subst hA hB
  have ht1n2 : t1 ∉ (extract sql2).1 := hdisj t1 ht1
  have ht2n1 : t2 ∉ (extract sql1).1 := fun hm => hdisj t2 hm ht2
  constructor
  · exact two_feedback_effects extract st m1 s1 q1 sql1 r1 m2 s2 q2 sql2 r2
      t1 t2 ht1 ht2 ht1n2 ht2n1
  · have h := two_feedback_effects extract st m2 s2 q2 sql2 r2 m1 s1 q1 sql1 r1
      t2 t1 ht2 ht1 ht2n1 ht1n2
    exact ⟨h.2.1, h.1, h.2.2.2, h.2.2.1⟩

/-- A concrete extraction for the C9 witness: the SQL text `"A"` touches
`orders`, anything else touches `customers`. -/
def extractW2 : String → List String × List String :=
  fun sql => if sql = "A" then (["orders"], ["JOIN"]) else (["customers"], ["JOIN"])

/-- Witness for C9 at the empty store: both tables' counts are incremented
in the first serialization order. -/
theorem C9_no_lost_update_witness :
    negCountTable (record_feedback extractW2
      (record_feedback extractW2 emptyStore "m1" "s1" "q1" "A"
        FeedbackType.negative none).1
      "m2" "s2" "q2" "B" FeedbackType.negative none).1 "orders" = 1 ∧
    negCountTable (record_feedback extractW2
      (record_feedback extractW2 emptyStore "m1" "s1" "q1" "A"
        FeedbackType.negative none).1
      "m2" "s2" "q2" "B" FeedbackType.negative none).1 "customers" = 1 := by
  have h := C9_no_lost_update extractW2 emptyStore "m1" "s1" "q1" "A" none
    "m2" "s2" "q2" "B" none "orders" "customers" _ _
    (by decide) (by decide) (by decide) (by decide) rfl rfl
  exact ⟨h.1.2.2.1, h.1.2.2.2⟩

/-! ## Feedback submission interface (C8)

Embedded from `frontend/src/api/feedbackApi.ts` (the same interfaces are
reproduced in the repository README): `FeedbackRequest` carries a message
id, a session id, a thumbs up/down judgment and an optional reason — and no
question or SQL text; `FeedbackResponse` carries a success flag, the id of
the created feedback record, and a message. -/

/-- `FeedbackType` of `feedbackApi.ts`: `thumbs_up | thumbs_down`. -/
inductive ApiFeedbackType where
  | thumbs_up : ApiFeedbackType
  | thumbs_down : ApiFeedbackType
deriving DecidableEq

/-- `FeedbackRequest` of `feedbackApi.ts`. -/
structure FeedbackRequest where
  message_id : String
  session_id : String
  feedback_type : ApiFeedbackType
  reason : Option String
deriving DecidableEq

/-- `FeedbackResponse` of `feedbackApi.ts`. -/
structure FeedbackResponse where
  success : Bool
  feedback_id : String
  message : String
deriving DecidableEq

/-- The field names of `FeedbackRequest` as declared in
`feedbackApi.ts`. -/
def feedbackRequestFields : List String :=
  ["message_id", "session_id", "feedback_type", "reason"]

/-- The field names of `FeedbackResponse` as declared in
`feedbackApi.ts`. -/
def feedbackResponseFields : List String :=
  ["success", "feedback_id", "message"]

/-- Build a feedback request from its four components. -/
def mkFeedbackRequest (m s : String) (t : ApiFeedbackType)
    (r : Option String) : FeedbackRequest :=
  { message_id := m, session_id := s, feedback_type := t, reason := r }

/-- The request payload built by `FeedbackButtons.handleFeedback`
(`frontend/src/components/chat/FeedbackButtons.tsx`): message id, session
id and judgment only — no reason, no question, no SQL. -/
def feedbackPayload (messageId sessionId : String) (t : ApiFeedbackType) :
    FeedbackRequest :=
  { message_id := messageId, session_id := sessionId, feedback_type := t,
    reason := none }

/-- **C8 fails as stated.** The exposed feedback-submission request type
does not accept a question text or a SQL text: neither `question` nor
`sql` is among the declared request fields. -/
theorem C8_counterexample :
    "question" ∉ feedbackRequestFields ∧ "sql" ∉ feedbackRequestFields := by
  decide

/-- **C8 amended.** The exposed feedback-submission operation accepts
exactly a message id, a session id, a binary thumbs up/down judgment and an
optional free-text reason (no question or SQL text — the backend derives
those from the message id), and its success response carries the id of the
created feedback record (`feedback_id`).  The component's own payload omits
the reason. -/
theorem C8_request_shape :
    Function.Injective
      (fun p : String × String × ApiFeedbackType × Option String =>
        mkFeedbackRequest p.1 p.2.1 p.2.2.1 p.2.2.2) ∧
    (∀ r : FeedbackRequest,
      r = mkFeedbackRequest r.message_id r.session_id r.feedback_type r.reason) ∧
    feedbackRequestFields =
      ["message_id", "session_id", "feedback_type", "reason"] ∧
    "feedback_id" ∈ feedbackResponseFields ∧
    (∀ resp : FeedbackResponse,
      resp = { success := resp.success, feedback_id := resp.feedback_id,
               message := resp.message }) ∧
    (∀ m s t, feedbackPayload m s t = mkFeedbackRequest m s t none) := by
  refine ⟨?_, ?_, rfl, by decide, ?_, ?_⟩
  · intro a b h
    have h1 := congrArg FeedbackRequest.message_id h
    have h2 := congrArg FeedbackRequest.session_id h
    have h3 := congrArg FeedbackRequest.feedback_type h
    have h4 := congrArg FeedbackRequest.reason h
    obtain ⟨a1, a2, a3, a4⟩ := a
    obtain ⟨b1, b2, b3, b4⟩ := b
    simp only [mkFeedbackRequest] at h1 h2 h3 h4
    simp [Prod.ext_iff]
    exact ⟨h1, h2, h3, h4⟩
  · intro r
    cases r
    rfl
  · intro resp
    cases resp
    rfl
  · intro m s t
    rfl

/-! ## FeedbackButtons submission discipline (C10)

State machine embedded from
`frontend/src/components/chat/FeedbackButtons.tsx`:
`handleFeedback` returns immediately when `submitted` or `isSubmitting` is
set; otherwise it marks the component submitting, clears the error, and
issues one API call whose completion either records the submitted judgment
(success) or records the error while leaving the component not-submitted
(failure), clearing `isSubmitting` in both cases.  State updates are
modelled as taking effect immediately; in-flight API calls are modelled as
the `pending` list so that over-submission would be observable. -/

/-- Component state: `submitted` judgment (if any), in-flight submissions,
and whether the error message is shown. -/
structure FbState where
  submitted : Option ApiFeedbackType
  pending : List ApiFeedbackType
  errorShown : Bool
deriving DecidableEq

/-- Initial component state. -/
def fbInit : FbState :=
  { submitted := none, pending := [], errorShown := false }

/-- Events of one component instance: a user click on one of the two
buttons, or the completion (success/failure) of the oldest in-flight
submission. -/
inductive FbEvent where
  | click : ApiFeedbackType → FbEvent
  | succeed : FbEvent
  | fail : FbEvent
deriving DecidableEq

/-- One step of the component, from `handleFeedback` and its
success/failure continuations. -/
def fbStep (s : FbState) : FbEvent → FbState
  | FbEvent.click t =>
      if s.submitted.isSome || !s.pending.isEmpty then s
      else { s with pending := s.pending ++ [t], errorShown := false }
  | FbEvent.succeed =>
      match s.pending with
      | [] => s
      | t :: rest =>
          { submitted := some t, pending := rest, errorShown := s.errorShown }
  | FbEvent.fail =>
      match s.pending with
      | [] => s
      | _ :: rest => { s with pending := rest, errorShown := true }

/-- Run the component over a list of events. -/
def fbRun (s : FbState) (es : List FbEvent) : FbState := es.foldl fbStep s

/-- Contribution of one event to the success count: `1` exactly when it is
a completion event and a submission is in flight. -/
def succAt (s : FbState) : FbEvent → Nat
  | FbEvent.click _ => 0
  | FbEvent.succeed => if s.pending.isEmpty then 0 else 1
  | FbEvent.fail => 0

/-- Contribution of one event to the issued-submission count: `1` exactly
when it is a click passing the component's guard. -/
def startAt (s : FbState) : FbEvent → Nat
  | FbEvent.click _ =>
      if s.submitted.isSome || !s.pending.isEmpty then 0 else 1
  | FbEvent.succeed => 0
  | FbEvent.fail => 0

/-- Number of successfully completed submissions along a trace. -/
def succCount (s : FbState) : List FbEvent → Nat
  | [] => 0
  | e :: es => succAt s e + succCount (fbStep s e) es

/-- Number of submissions issued (clicks passing the guard) along a
trace. -/
def startCount (s : FbState) : List FbEvent → Nat
  | [] => 0
  | e :: es => startAt s e + startCount (fbStep s e) es

/-- Reachable-state invariant: at most one submission in flight, and none
once a judgment has been submitted. -/
def FbInv (s : FbState) : Prop :=
  s.pending.length ≤ 1 ∧ (s.submitted.isSome = true → s.pending = [])

lemma fbInv_init : FbInv fbInit := by
  constructor
  · decide
  · intro h
    cases h

lemma fbInv_step (s : FbState) (e : FbEvent) (h : FbInv s) :
    FbInv (fbStep s e) := by
  cases e with
  | click t =>
      rw [fbStep]
      by_cases hg : (s.submitted.isSome || !s.pending.isEmpty) = true
      · rw [if_pos hg]
        exact h
      · rw [if_neg hg]
        have hemp : s.pending = [] := by
          cases hp : s.pending with
          | nil => rfl
          | cons a l =>
              exfalso
              apply hg
              rw [hp]
              simp
        have hsub : s.submitted.isSome = false := by
          cases hs : s.submitted.isSome
          · rfl
          · exfalso
            apply hg
            rw [hs]
            rfl
        constructor
        · rw [hemp]
          simp
        · intro hcontra
          have hc : s.submitted.isSome = true := hcontra
          rw [hsub] at hc
          cases hc
  | succeed =>
      rw [fbStep]
      cases hp : s.pending with
      | nil => exact h
      | cons t rest =>
          have hr : rest = [] := by
            have hl := h.1
            rw [hp] at hl
            simpa using List.length_eq_zero.1
              (Nat.le_zero.1 (Nat.succ_le_succ_iff.1 hl))
          subst hr
          exact ⟨Nat.zero_le 1, fun _ => rfl⟩
  | fail =>
      rw [fbStep]
      cases hp : s.pending with
      | nil => exact h
      | cons t rest =>
          have hr : rest = [] := by
            have hl := h.1
            rw [hp] at hl
            simpa using List.length_eq_zero.1
              (Nat.le_zero.1 (Nat.succ_le_succ_iff.1 hl))
          subst hr
          refine ⟨Nat.zero_le 1, fun hsub => ?_⟩
          rfl

lemma fbInv_run (s : FbState) (es : List FbEvent) (h : FbInv s) :
    FbInv (fbRun s es) := by
  induction es generalizing s with
  | nil => exact h
  | cons e es ih =>
      rw [fbRun, List.foldl_cons]
      exact ih (fbStep s e) (fbInv_step s e h)

/-- Once a judgment is submitted, no further submission is ever issued and
no further success ever occurs; the state is frozen. -/
lemma fb_submitted_frozen (s : FbState) (h : FbInv s)
    (hs : s.submitted.isSome = true) :
    ∀ es : List FbEvent,
      startCount s es = 0 ∧ succCount s es = 0 ∧ fbRun s es = s := by
  have hemp : s.pending = [] := h.2 hs
  intro es
  induction es with
  | nil => exact ⟨rfl, rfl, rfl⟩
  | cons e es ih =>
      have hstep : fbStep s e = s := by
        cases e with
        | click t =>
            rw [fbStep, if_pos]
            rw [hs]
            rfl
        | succeed =>
            rw [fbStep, hemp]
        | fail =>
            rw [fbStep, hemp]
      have hsucc0 : succAt s e = 0 := by
        cases e with
        | click t => rfl
        | succeed =>
            rw [succAt, hemp]
            rfl
        | fail => rfl
      have hstart0 : startAt s e = 0 := by
        cases e with
        | click t =>
            rw [startAt, if_pos]
            rw [hs]
            rfl
        | succeed => rfl
        | fail => rfl
      refine ⟨?_, ?_, ?_⟩
      · rw [startCount, hstep, ih.1, hstart0]
      · rw [succCount, hstep, ih.2.1, hsucc0]
      · rw [fbRun, List.foldl_cons, hstep]
        exact ih.2.2

/-- At most one success along any trace from an invariant state. -/
lemma fb_succCount_le_one (es : List FbEvent) :
    ∀ s : FbState, FbInv s → succCount s es ≤ 1 := by
  induction es with
  | nil => intro s _; exact Nat.zero_le 1
  | cons e es ih =>
      intro s h
      rw [succCount]
      cases e with
      | click t =>
          have hih := ih (fbStep s (FbEvent.click t)) (fbInv_step s _ h)
          have h0 : succAt s (FbEvent.click t) = 0 := rfl
          rw [h0]
          simpa using hih
      | succeed =>
          cases hp : s.pending with
          | nil =>
              have hih := ih (fbStep s FbEvent.succeed) (fbInv_step s _ h)
              have h0 : succAt s FbEvent.succeed = 0 := by
                rw [succAt, hp]
                rfl
              rw [h0]
              simpa using hih
          | cons t rest =>
              have hr : rest = [] := by
                have hl := h.1
                rw [hp] at hl
                simpa using List.length_eq_zero.1
                  (Nat.le_zero.1 (Nat.succ_le_succ_iff.1 hl))
              have hstep : fbStep s FbEvent.succeed =
                  { submitted := some t, pending := rest,
                    errorShown := s.errorShown } := by
                rw [fbStep, hp]
              have hfrozen := fb_submitted_frozen
                { submitted := some t, pending := rest,
                  errorShown := s.errorShown }
                ⟨by rw [hr]; exact Nat.zero_le 1, fun _ => hr⟩ rfl es
              have h1 : succAt s FbEvent.succeed ≤ 1 := by
                rw [succAt]
                split <;> simp
              rw [hstep, hfrozen.2.1]
              simpa using h1
      | fail =>
          have hih := ih (fbStep s FbEvent.fail) (fbInv_step s _ h)
          have h0 : succAt s FbEvent.fail = 0 := rfl
          rw [h0]
          simpa using hih

/-- **C10.** For every sequence of events of one `FeedbackButtons`
instance: at most one submission is ever in flight; at most one submission
ever succeeds; once a submission has succeeded the component never issues
or completes another one; and a failed submission leaves the not-submitted
state, so a subsequent click issues a fresh submission (retry). -/
theorem C10_single_submission (es : List FbEvent) :
    (fbRun fbInit es).pending.length ≤ 1 ∧
    succCount fbInit es ≤ 1 ∧
    ((fbRun fbInit es).submitted.isSome = true →
      ∀ more : List FbEvent,
        startCount (fbRun fbInit es) more = 0 ∧
        succCount (fbRun fbInit es) more = 0) ∧
    (∀ t t' : ApiFeedbackType,
      fbRun fbInit [FbEvent.click t, FbEvent.fail] =
        { submitted := none, pending := [], errorShown := true } ∧
      (fbStep (fbRun fbInit [FbEvent.click t, FbEvent.fail])
        (FbEvent.click t')).pending = [t']) := by
  refine ⟨(fbInv_run fbInit es fbInv_init).1,
    fb_succCount_le_one es fbInit fbInv_init, ?_, ?_⟩
  · intro hs more
    have h := fb_submitted_frozen (fbRun fbInit es)
      (fbInv_run fbInit es fbInv_init) hs more
    exact ⟨h.1, h.2.1⟩
  · intro t t'
    constructor
    · rfl
    · rfl

/-- Witness for C10: after a successful submission, a further click issues
nothing and nothing further succeeds. -/
theorem C10_single_submission_witness :
    (fbRun fbInit [FbEvent.click ApiFeedbackType.thumbs_up,
      FbEvent.succeed]).submitted.isSome = true ∧
    startCount (fbRun fbInit [FbEvent.click ApiFeedbackType.thumbs_up,
      FbEvent.succeed]) [FbEvent.click ApiFeedbackType.thumbs_down] = 0 ∧
    succCount (fbRun fbInit [FbEvent.click ApiFeedbackType.thumbs_up,
      FbEvent.succeed]) [FbEvent.click ApiFeedbackType.thumbs_down] = 0 := by
  have h := (C10_single_submission [FbEvent.click ApiFeedbackType.thumbs_up,
    FbEvent.succeed]).2.2.1 (by decide)
    [FbEvent.click ApiFeedbackType.thumbs_down]
  exact ⟨by decide, h.1, h.2⟩

end ClearSky
